import Mathlib

set_option maxRecDepth 200000

/-!
Formal model of the okx_market_sentry core, translated from the Go source.

Conventions of the embedding:
* Go `float64` values are modelled as rationals (`ℚ`); the claims under
  study concern comparisons and exact arithmetic identities that are
  insensitive to rounding, and no NaN/Inf arises on the studied paths.
* Go `time.Time` / `time.Duration` values are modelled as integers
  (seconds); `time.Now()` becomes an explicit `now` parameter.
* Go `int` configuration lengths are modelled as `ℕ` (all shipped
  configurations use positive lengths; Go slice expressions would panic
  on negative ones).
* Nil pointers become `Option`; a Go function that can return `nil`
  returns `Option _`.
* Maps guarded by mutexes become association lists; goroutine-parallel
  per-symbol analysis is modelled as a sequential fold over events, which
  is faithful per symbol because each `AnalyzeAll` touches a symbol once
  and runs under the engine's mutex for ledger access.
-/

namespace OkxSentry

/-- `types.PriceDataPoint`: a price observation (pkg/types/market.go). -/
structure PriceDataPoint where
  Price : ℚ
  Timestamp : ℤ
deriving DecidableEq, Repr

/-- `types.AlertData`: an alarm-pipeline alert (pkg/types/market.go). -/
structure AlertData where
  Symbol : String
  CurrentPrice : ℚ
  PastPrice : ℚ
  ChangePercent : ℚ
  AlertTime : ℤ
  MonitorPeriod : ℤ
deriving DecidableEq, Repr

/-- `types.KLine`: a candle (pkg/types/market.go). -/
structure KLine where
  Symbol : String
  OpenTime : ℤ
  CloseTime : ℤ
  Open : ℚ
  High : ℚ
  Low : ℚ
  Close : ℚ
  Volume : ℚ
  Interval : String
deriving DecidableEq, Repr

/-- `types.DonchianChannel` (pkg/types/config.go). -/
structure DonchianChannel where
  Upper : ℚ
  Lower : ℚ
  Middle : ℚ
deriving DecidableEq, Repr

/-- `types.ATRData` (pkg/types/config.go). -/
structure ATRData where
  Value : ℚ
  Slope : ℚ
deriving DecidableEq, Repr

/-- `types.TradingSignal` (pkg/types/config.go): exactly the fields the
detector fills in (src/unnamed/part_005, lines 90-101). -/
structure TradingSignal where
  Symbol : String
  SignalType : String
  Price : ℚ
  Volume : ℚ
  VolumeRatio : ℚ
  DonchianUpper : ℚ
  ATRValue : ℚ
  ConsolidationBars : ℕ
  SignalStrength : ℚ
  SignalTime : ℤ
deriving DecidableEq, Repr

/-- `types.DonchianConfig` (pkg/types/market.go), numeric fields only. -/
structure DonchianConfig where
  DonchianLength : ℕ
  DonchianOffset : ℕ
  ATRLength : ℕ
  ConsolidationBars : ℕ
  VolumeMultiplier : ℚ
  MinSignalStrength : ℚ
deriving DecidableEq, Repr

namespace Storage

/-- `CircularQueue.Add` (internal/storage/storage.go, lines 29-48): append
the point, then find the first index whose timestamp is strictly after
`now - maxAge` (Go `Timestamp.After(cutoff)`) and drop everything before
it; when no entry is after the cutoff, `newStart` stays `0` and nothing
is dropped. -/
def CircularQueue.Add (maxAge now : ℤ) (data : List PriceDataPoint)
    (point : PriceDataPoint) : List PriceDataPoint :=
  let appended := data ++ [point]
  let cutoff := now - maxAge
  let newStart := (appended.findIdx? (fun p => cutoff < p.Timestamp)).getD 0
  appended.drop newStart

/-- `CircularQueue.GetLatest` (storage.go, lines 60-68). -/
def CircularQueue.GetLatest (data : List PriceDataPoint) : Option PriceDataPoint :=
  data.getLast?

/-- One step of the scan loop of `CircularQueue.FindPriceAroundTime`
(storage.go, lines 81-91): keep the candidate with strictly smaller
absolute time difference, so the earliest entry wins ties. -/
def findStep (targetTime : ℤ) (acc : ℤ × Option PriceDataPoint)
    (p : PriceDataPoint) : ℤ × Option PriceDataPoint :=
  let diff := |targetTime - p.Timestamp|
  if diff < acc.1 then (diff, some p) else acc

/-- `CircularQueue.FindPriceAroundTime` (storage.go, lines 70-99): `nil`
for fewer than two entries; otherwise the entry closest to `targetTime`,
or `nil` when the closest is more than 2 minutes (120 s) away. The Go
initial `minDiff` is `math.MaxInt64` nanoseconds; any real diff is
smaller, which `maxInt64Seconds` over-approximates harmlessly since the
queue never holds points that far away (we keep the same first-iteration
behaviour: the first element always replaces the sentinel). -/
def CircularQueue.FindPriceAroundTime (data : List PriceDataPoint)
    (targetTime : ℤ) : Option PriceDataPoint :=
  if data.length < 2 then none
  else
    let r := data.foldl (findStep targetTime) ((2 : ℤ) ^ 63, none)
    if 120 < r.1 then none else r.2

/-- `StateManager.GetPriceData` (storage.go, lines 207-226): `queue` is
the symbol's entry in `priceHistory` (`none` when the symbol is absent);
`windowSize` is 5 minutes, so `past` is looked up around `now - 300`. -/
def StateManager.GetPriceData (windowSize now : ℤ)
    (queue : Option (List PriceDataPoint)) :
    Option PriceDataPoint × Option PriceDataPoint :=
  match queue with
  | none => (none, none)
  | some data =>
    match CircularQueue.GetLatest data with
    | none => (none, none)
    | some current =>
      (some current, CircularQueue.FindPriceAroundTime data (now - windowSize))

end Storage

namespace Analyzer

/-- The dedup ledger `alertHistory : map[string]time.Time`
(internal/analyzer/analyzer.go), modelled extensionally as its lookup
function; `recordAlert` prunes every entry, which the functional
representation applies pointwise. -/
def AlertHistory : Type := String → Option ℤ

/-- The freshly created engine's empty ledger (`make(map[string]time.Time)`). -/
def emptyHistory : AlertHistory := fun _ => none

/-- `AnalysisEngine.shouldAlert` (analyzer.go, lines 276-288):
eligible when the symbol has no ledger entry or
`time.Since(lastAlert) > monitorPeriod`. -/
def shouldAlert (monitorPeriod now : ℤ) (hist : AlertHistory)
    (symbol : String) : Bool :=
  match hist symbol with
  | none => true
  | some lastAlert => decide (monitorPeriod < now - lastAlert)

/-- `AnalysisEngine.recordAlert` (analyzer.go, lines 290-304): write
`alertHistory[symbol] = now`, then delete every entry whose time is
before `now` minus one hour (3600 s); the prune inspects the fresh entry
too, which trivially survives. -/
def recordAlert (now : ℤ) (hist : AlertHistory) (symbol : String) :
    AlertHistory :=
  fun s =>
    match (if s == symbol then some now else hist s) with
    | none => none
    | some t => if t < now - 3600 then none else some t

/-- `AnalysisEngine.analyzeSymbol` (analyzer.go, lines 207-242, the
revision carrying `monitorPeriod`): `current`/`past` are what
`GetPriceData` returned for the symbol; result is the emitted alert (if
any) together with the ledger after the call (`recordAlert` runs exactly
when an alert is returned). `AlertTime` is the wall clock `now`. -/
def analyzeSymbol (threshold : ℚ) (monitorPeriod now : ℤ)
    (hist : AlertHistory) (symbol : String)
    (current past : Option PriceDataPoint) :
    Option AlertData × AlertHistory :=
  match current, past with
  | some cur, some pst =>
    let changePercent := (cur.Price - pst.Price) / pst.Price * 100
    let absChange := if changePercent < 0 then -changePercent else changePercent
    if threshold < absChange then
      if shouldAlert monitorPeriod now hist symbol then
        (some { Symbol := symbol
                CurrentPrice := cur.Price
                PastPrice := pst.Price
                ChangePercent := changePercent
                AlertTime := now
                MonitorPeriod := monitorPeriod },
          recordAlert now hist symbol)
      else (none, hist)
    else (none, hist)
  | _, _ => (none, hist)

/-- One per-symbol analysis: at wall clock `Now` the engine analyses
`Symbol` with the `(current, past)` pair the store returned. Successive
`AnalyzeAll` cycles produce events with nondecreasing `Now`; within one
cycle each symbol occurs once and ledger access is mutex-serialised, so
a sequential event list is a faithful view per symbol. -/
structure AnalyzeEvent where
  Symbol : String
  Now : ℤ
  Current : Option PriceDataPoint
  Past : Option PriceDataPoint

/-- Run a sequence of per-symbol analyses from a ledger state, collecting
the emitted alerts in order. -/
def runAnalyzer (threshold : ℚ) (monitorPeriod : ℤ) (hist : AlertHistory) :
    List AnalyzeEvent → List AlertData
  | [] => []
  | e :: es =>
    match analyzeSymbol threshold monitorPeriod e.Now hist e.Symbol
        e.Current e.Past with
    | (some a, hist2) => a :: runAnalyzer threshold monitorPeriod hist2 es
    | (none, hist2) => runAnalyzer threshold monitorPeriod hist2 es

/-- The alert times emitted for one symbol, in emission order. -/
def alertTimesFor (s : String) (alerts : List AlertData) : List ℤ :=
  (alerts.filter (fun a => a.Symbol == s)).map AlertData.AlertTime

end Analyzer

/-- Zero-valued `KLine`, used only as the default of list indexing that
the Go source performs unguarded (`klines[len-1]`, `klines[len-2]`); on
every studied path the index is in range. -/
def kZero : KLine :=
  { Symbol := "", OpenTime := 0, CloseTime := 0, Open := 0, High := 0
    Low := 0, Close := 0, Volume := 0, Interval := "" }

instance : Inhabited KLine := ⟨kZero⟩

namespace Indicators

/-- The true range of `current` given `previous`
(atr.go, lines 52-62): `max(high-low, |high-prevClose|, |low-prevClose|)`. -/
def trOf (previous current : KLine) : ℚ :=
  max (current.High - current.Low)
    (max |current.High - previous.Close| |current.Low - previous.Close|)

/-- `ATRCalculator.calculateTrueRange` (atr.go, lines 45-66): one true
range per adjacent pair; `nil` (here `[]`) for fewer than two candles. -/
def calculateTrueRange : List KLine → List ℚ
  | [] => []
  | [_] => []
  | previous :: current :: rest =>
    trOf previous current :: calculateTrueRange (current :: rest)

/-- `ATRCalculator.calculateSMA` (atr.go, lines 69-80). -/
def calculateSMA (values : List ℚ) : ℚ :=
  if values.length = 0 then 0 else values.sum / (values.length : ℚ)

/-- The loop body shared verbatim by `calculateATRSlope`,
`isATRInLowestQuartile` and `GetATRPercentile` (atr.go, lines 93-104,
167-177 and 233-243 repeat it identically): the ATR at bar index `i`,
the SMA of the last `length` true ranges of `klines[i-length : i+1]`;
`none` when the iteration contributes nothing (the `i-length < 0`
`continue`, or too few true ranges). -/
def atrWindowValue (length : ℕ) (klines : List KLine) (i : ℕ) : Option ℚ :=
  if i < length then none
  else
    let trValues := calculateTrueRange ((klines.drop (i - length)).take (length + 1))
    if length ≤ trValues.length then
      some (calculateSMA (trValues.drop (trValues.length - length)))
    else none

/-- The "most recent 45 ATR values" walk (indices
`len(klines)-45 .. len(klines)-1`); every caller first guards
`45 + length ≤ len(klines)`. -/
def trailingATRValues (length : ℕ) (klines : List KLine) : List ℚ :=
  ((List.range 45).map (fun j => klines.length - 45 + j)).filterMap
    (atrWindowValue length klines)

/-- `ATRCalculator.calculateLinearRegressionSlope` (atr.go, lines
115-139): least squares with `x = 1..n`. -/
def calculateLinearRegressionSlope (values : List ℚ) : ℚ :=
  if values.length < 2 then 0
  else
    let n : ℚ := (values.length : ℚ)
    let xs := (List.range values.length).map (fun i => ((i : ℚ) + 1))
    let sumX := xs.sum
    let sumY := values.sum
    let sumXY := ((xs.zip values).map (fun p => p.1 * p.2)).sum
    let sumX2 := (xs.map (fun x => x * x)).sum
    let denominator := n * sumX2 - sumX * sumX
    if denominator = 0 then 0
    else (n * sumXY - sumX * sumY) / denominator

/-- `ATRCalculator.calculateATRSlope` (atr.go, lines 83-112): slope of
the 45 trailing ATRs; `0` with fewer than `45 + length` bars or fewer
than 10 points. -/
def calculateATRSlope (length : ℕ) (klines : List KLine) : ℚ :=
  if klines.length < 45 + length then 0
  else
    let atrValues := trailingATRValues length klines
    if atrValues.length < 10 then 0
    else calculateLinearRegressionSlope atrValues

/-- `ATRCalculator.Calculate` (atr.go, lines 21-42). -/
def ATRCalculator.Calculate (length : ℕ) (klines : List KLine) :
    Option ATRData :=
  if klines.length < length + 1 then none
  else
    let trValues := calculateTrueRange klines
    if trValues.length < length then none
    else
      some { Value := calculateSMA (trValues.drop (trValues.length - length))
             Slope := calculateATRSlope length klines }

/-- `ATRCalculator.isATRInLowestQuartile` (atr.go, lines 157-197). The
source sorts a copy with an in-place Lomuto quicksort; its result is the
ascending reordering of the values, which `insertionSort (· ≤ ·)`
computes as well. The index `int(float64(n) * 0.25)` is exactly `n / 4`
(`n·0.25` is exact in binary floating point, truncated toward zero). -/
def isATRInLowestQuartile (length : ℕ) (currentATR : ℚ)
    (klines : List KLine) : Bool :=
  if klines.length < 45 + length then false
  else
    let atrValues := trailingATRValues length klines
    if atrValues.length < 4 then false
    else
      let sortedATR := List.insertionSort (· ≤ ·) atrValues
      let index0 := sortedATR.length / 4
      let index := if sortedATR.length ≤ index0 then sortedATR.length - 1 else index0
      decide (currentATR ≤ sortedATR.getD index 0)

/-- `ATRCalculator.IsATRDecreasing` (atr.go, lines 142-154): negative
slope, or else current ATR within the lowest quartile. -/
def IsATRDecreasing (length : ℕ) (atrData : Option ATRData)
    (klines : List KLine) : Bool :=
  match atrData with
  | none => false
  | some d =>
    if d.Slope < 0 then true else isATRInLowestQuartile length d.Value klines

/-- `ATRCalculator.GetATRPercentile` (atr.go, lines 224-258): the share
(0-100) of trailing ATRs strictly below the current one; 50 when data is
insufficient. -/
def GetATRPercentile (length : ℕ) (currentATR : ℚ)
    (klines : List KLine) : ℚ :=
  if klines.length < 45 + length then 50
  else
    let atrValues := trailingATRValues length klines
    if atrValues.length = 0 then 50
    else
      let rank := (atrValues.filter (fun a => decide (a < currentATR))).length
      (rank : ℚ) / (atrValues.length : ℚ) * 100

/-- The highest `High` of a window, with the source's first-element
initialisation (atr.go Donchian part, lines 301-319): `0` on an empty
window (Go zero value). -/
def highestHigh : List KLine → ℚ
  | [] => 0
  | k :: ks => ks.foldl (fun acc k2 => max acc k2.High) k.High

/-- The lowest `Low` of a window, `0` on an empty window. -/
def lowestLow : List KLine → ℚ
  | [] => 0
  | k :: ks => ks.foldl (fun acc k2 => min acc k2.Low) k.Low

/-- `DonchianCalculator.Calculate` (atr.go Donchian part, lines 288-328):
channel over the slice `[len-length-offset, len-offset)`. -/
def DonchianCalculator.Calculate (length offset : ℕ) (klines : List KLine) :
    Option DonchianChannel :=
  if klines.length < length + offset then none
  else
    let window := (klines.drop (klines.length - length - offset)).take length
    let highest := highestHigh window
    let lowest := lowestLow window
    some { Upper := highest, Lower := lowest, Middle := (highest + lowest) / 2 }

/-- `DonchianCalculator.CalculateBreakout` (atr.go Donchian part, lines
331-350): on the latest candle, `close > upper ∧ close > open` is LONG,
`close < lower ∧ close < open` is SHORT, else no breakout. -/
def DonchianCalculator.CalculateBreakout (klines : List KLine)
    (channel : Option DonchianChannel) : Bool × String :=
  match klines.getLast?, channel with
  | some latest, some ch =>
    if ch.Upper < latest.Close ∧ latest.Open < latest.Close then (true, "LONG")
    else if latest.Close < ch.Lower ∧ latest.Close < latest.Open then (true, "SHORT")
    else (false, "")
  | _, _ => (false, "")

/-- `DonchianCalculator.DetectConsolidation` (atr.go Donchian part, lines
353-389): over the last `consolidationBars` candles, consolidation iff
`range ≤ avg * 0.05`. -/
def DonchianCalculator.DetectConsolidation (klines : List KLine)
    (consolidationBars : ℕ) : Bool × ℕ :=
  if klines.length < consolidationBars then (false, klines.length)
  else
    let window := klines.drop (klines.length - consolidationBars)
    let highest := highestHigh window
    let lowest := lowestLow window
    let priceRange := highest - lowest
    let avgPrice := (highest + lowest) / 2
    (decide (priceRange ≤ avgPrice * (5 / 100)), consolidationBars)

/-- `DonchianCalculator.GetDonchianPosition` (atr.go Donchian part, lines
425-440): `(price - lower)/(upper - lower)` clamped into `[0, 1]`; `0.5`
for a nil or degenerate channel. -/
def DonchianCalculator.GetDonchianPosition (price : ℚ)
    (channel : Option DonchianChannel) : ℚ :=
  match channel with
  | none => 1 / 2
  | some ch =>
    if ch.Upper = ch.Lower then 1 / 2
    else
      let position := (price - ch.Lower) / (ch.Upper - ch.Lower)
      if position < 0 then 0 else if 1 < position then 1 else position

/-- `DonchianCalculator.IsValidBreakout` (atr.go Donchian part, lines
452-480): breakout again, then volume confirmation
`current.Volume ≥ previous.Volume * volumeMultiplier` and a direction-
matching candle shape. -/
def DonchianCalculator.IsValidBreakout (klines : List KLine)
    (channel : Option DonchianChannel) (volumeMultiplier : ℚ) : Bool :=
  match channel with
  | none => false
  | some ch =>
    if klines.length < 2 then false
    else
      let current := klines.getD (klines.length - 1) kZero
      let previous := klines.getD (klines.length - 2) kZero
      match DonchianCalculator.CalculateBreakout klines (some ch) with
      | (false, _) => false
      | (true, direction) =>
        let volumeConfirmed :=
          decide (previous.Volume * volumeMultiplier ≤ current.Volume)
        let candleConfirmed :=
          if direction == "LONG" then
            decide (current.Open < current.Close ∧ ch.Upper < current.Close)
          else if direction == "SHORT" then
            decide (current.Close < current.Open ∧ current.Close < ch.Lower)
          else false
        volumeConfirmed && candleConfirmed

end Indicators

namespace Signals

/-- `DonchianSignalDetector.getRequiredBars` (src/unnamed/part_005, lines
253-257). -/
def getRequiredBars (cfg : DonchianConfig) : ℕ :=
  cfg.ConsolidationBars + cfg.DonchianLength + cfg.DonchianOffset
    + cfg.ATRLength + 45

/-- `calculateBreakoutStrength` (part_005, lines 149-173): breakout
distance over channel width, percent, capped at 100. -/
def calculateBreakoutStrength (kline : KLine) (channel : DonchianChannel) : ℚ :=
  if channel.Upper = channel.Lower then 0
  else
    let channelWidth := channel.Upper - channel.Lower
    let breakoutDistance : Option ℚ :=
      if channel.Upper < kline.Close then some (kline.Close - channel.Upper)
      else if kline.Close < channel.Lower then some (channel.Lower - kline.Close)
      else none
    match breakoutDistance with
    | none => 0
    | some d =>
      let ratio := d / channelWidth * 100
      if 100 < ratio then 100 else ratio

/-- `calculateVolumeStrength` (part_005, lines 176-195): stepwise score
of `current.Volume / previous.Volume` against the configured multiplier;
0 when the previous volume is 0. -/
def calculateVolumeStrength (volumeMultiplier : ℚ)
    (current previous : KLine) : ℚ :=
  if previous.Volume = 0 then 0
  else
    let volumeRatio := current.Volume / previous.Volume
    if volumeMultiplier * 2 ≤ volumeRatio then 100
    else if volumeMultiplier ≤ volumeRatio then 80
    else if volumeMultiplier * (8 / 10) ≤ volumeRatio then 60
    else if volumeMultiplier * (6 / 10) ≤ volumeRatio then 40
    else 20

/-- `calculateATRStrength` (part_005, lines 198-214):
`clamp(-slope*1000, 0, 50) + (100 - percentile)/2`. -/
def calculateATRStrength (atrLength : ℕ) (atrData : ATRData)
    (klines : List KLine) : ℚ :=
  let slopeStrength :=
    if atrData.Slope < 0 then
      let s := -atrData.Slope * 1000
      if 50 < s then 50 else s
    else 0
  let percentile := Indicators.GetATRPercentile atrLength atrData.Value klines
  slopeStrength + (100 - percentile) / 2

/-- `calculateCandleStrength` (part_005, lines 217-233):
`|close - open| / (high - low) * 100`; 0 for a degenerate bar. -/
def calculateCandleStrength (kline : KLine) : ℚ :=
  if kline.High = kline.Low then 0
  else
    let bodySize :=
      if kline.Close - kline.Open < 0 then -(kline.Close - kline.Open)
      else kline.Close - kline.Open
    bodySize / (kline.High - kline.Low) * 100

/-- `calculatePositionStrength` (part_005, lines 236-250): the channel
position (as clamped by `GetDonchianPosition`) mapped to
`(position-1)*200` above the upper band and `(0-position)*200` below the
lower band. -/
def calculatePositionStrength (kline : KLine) (channel : DonchianChannel) : ℚ :=
  let position :=
    Indicators.DonchianCalculator.GetDonchianPosition kline.Close (some channel)
  if channel.Upper < kline.Close then (position - 1) * 200
  else if kline.Close < channel.Lower then (0 - position) * 200
  else 0

/-- `calculateSignalStrength` (part_005, lines 115-146): the weighted sum
0.3/0.25/0.2/0.15/0.1 of the five factor scores. -/
def calculateSignalStrength (cfg : DonchianConfig) (klines : List KLine)
    (channel : Option DonchianChannel) (atrData : Option ATRData) : ℚ :=
  match channel, atrData with
  | some ch, some atr =>
    if klines.length < 2 then 0
    else
      let latest := klines.getD (klines.length - 1) kZero
      let previous := klines.getD (klines.length - 2) kZero
      calculateBreakoutStrength latest ch * (3 / 10)
        + calculateVolumeStrength cfg.VolumeMultiplier latest previous * (25 / 100)
        + calculateATRStrength cfg.ATRLength atr klines * (2 / 10)
        + calculateCandleStrength latest * (15 / 100)
        + calculatePositionStrength latest ch * (1 / 10)
  | _, _ => 0

/-- `DonchianSignalDetector.DetectSignal` (part_005, lines 26-112): the
short-circuiting gate chain — data size, consolidation, ATR decreasing,
channel, breakout, validity (volume), strength — then the signal built
from the latest candle. (`VolumeRatio` divides by the previous volume;
`ℚ` division by zero yields 0 where Go yields +Inf — no studied claim
depends on that field.) -/
def DetectSignal (cfg : DonchianConfig) (symbol : String)
    (klines : List KLine) : Option TradingSignal :=
  if klines.length < getRequiredBars cfg then none
  else
    let consolidation :=
      Indicators.DonchianCalculator.DetectConsolidation klines cfg.ConsolidationBars
    if consolidation.1 = false then none
    else
      match Indicators.ATRCalculator.Calculate cfg.ATRLength klines with
      | none => none
      | some atrData =>
        if Indicators.IsATRDecreasing cfg.ATRLength (some atrData) klines = false
        then none
        else
          match Indicators.DonchianCalculator.Calculate cfg.DonchianLength
              cfg.DonchianOffset klines with
          | none => none
          | some channel =>
            match Indicators.DonchianCalculator.CalculateBreakout klines
                (some channel) with
            | (false, _) => none
            | (true, direction) =>
              if Indicators.DonchianCalculator.IsValidBreakout klines
                  (some channel) cfg.VolumeMultiplier = false then none
              else
                let signalStrength :=
                  calculateSignalStrength cfg klines (some channel) (some atrData)
                if signalStrength < cfg.MinSignalStrength then none
                else
                  let latest := klines.getD (klines.length - 1) kZero
                  let previous := klines.getD (klines.length - 2) kZero
                  some { Symbol := symbol
                         SignalType := direction
                         Price := latest.Close
                         Volume := latest.Volume
                         VolumeRatio := latest.Volume / previous.Volume
                         DonchianUpper := channel.Upper
                         ATRValue := atrData.Value
                         ConsolidationBars := consolidation.2
                         SignalStrength := signalStrength
                         SignalTime := latest.CloseTime }

end Signals

namespace Notifier

/-- Riser ordering used by the batch builders (part_002): `sort.Slice`
with `less i j := cp[i] > cp[j]`, i.e. change percent descending. -/
def byPercentDesc (a b : AlertData) : Prop := b.ChangePercent ≤ a.ChangePercent

/-- Faller ordering: `less i j := cp[i] < cp[j]`, change percent
ascending (most negative first). -/
def byPercentAsc (a b : AlertData) : Prop := a.ChangePercent ≤ b.ChangePercent

instance : DecidableRel byPercentDesc := fun a b =>
  inferInstanceAs (Decidable (b.ChangePercent ≤ a.ChangePercent))

instance : DecidableRel byPercentAsc := fun a b =>
  inferInstanceAs (Decidable (a.ChangePercent ≤ b.ChangePercent))

instance : IsTotal AlertData byPercentDesc :=
  ⟨fun a b => le_total b.ChangePercent a.ChangePercent⟩

instance : IsTrans AlertData byPercentDesc :=
  ⟨fun _ _ _ h1 h2 => le_trans h2 h1⟩

instance : IsTotal AlertData byPercentAsc :=
  ⟨fun a b => le_total a.ChangePercent b.ChangePercent⟩

instance : IsTrans AlertData byPercentAsc :=
  ⟨fun _ _ _ h1 h2 => le_trans h1 h2⟩

/-- The riser partition of a batch (`ChangePercent > 0`), as split by the
loop at part_002 lines 721-728 (and 407-414). -/
def upAlerts (alerts : List AlertData) : List AlertData :=
  alerts.filter (fun a => decide (0 < a.ChangePercent))

/-- The faller partition: everything that is not a riser (a change of
exactly 0 lands here, matching the `else` branch). -/
def downAlerts (alerts : List AlertData) : List AlertData :=
  alerts.filter (fun a => !decide (0 < a.ChangePercent))

/-- The alert rows rendered by the batch body builders of part_002,
abstracted from the rendered string to the sequence of alerts that get a
row of their own: sorted risers then sorted fallers, each group
truncated to `showCount = min(len, maxShow)`; alerts beyond the cap
appear only in a "...N more" summary line. Go's `sort.Slice` is
replaced by `insertionSort`, which realises the same ordering
(`sort.Slice` leaves ties in unspecified order; ties affect only which
equal-percent alert is shown first). -/
def batchRows (maxShow : ℕ) (alerts : List AlertData) : List AlertData :=
  let up := List.insertionSort byPercentDesc (upAlerts alerts)
  let down := List.insertionSort byPercentAsc (downAlerts alerts)
  up.take (min up.length maxShow) ++ down.take (min down.length maxShow)

/-- `DingTalkNotifier.buildBatchMarkdownContent` (part_002, lines
716-793): `maxShow := 8` for both groups (lines 750 and 772). -/
def dingTalkBatchRows (alerts : List AlertData) : List AlertData :=
  batchRows 8 alerts

/-- `PushPlusNotifier.buildBatchHTMLContent` (part_002, lines 398-515):
`maxShow := 10` for both groups (lines 448 and 490). -/
def pushPlusBatchRows (alerts : List AlertData) : List AlertData :=
  batchRows 10 alerts

end Notifier

namespace Websocket

/-- `Client.parseOKXKlineData` (src/unnamed/part_006, lines 297-345),
success path, over the already-parsed numeric row
`[timestamp, open, high, low, close, ...]` (a row whose strings fail to
parse returns an error and produces no candle, and is outside this
model). The mark-price-candle payload carries no volume and the parser
hard-codes `volume := 0` (line 330). `intervalDur` stands for
`parseIntervalToDuration(interval)`; sub-second timestamp precision is
dropped. -/
def parseOKXKlineData (symbol : String) (timestamp : ℤ) (o h l c : ℚ)
    (interval : String) (intervalDur : ℤ) : KLine :=
  { Symbol := symbol
    OpenTime := timestamp / 1000
    CloseTime := timestamp / 1000 + intervalDur
    Open := o, High := h, Low := l, Close := c
    Volume := 0
    Interval := interval }

end Websocket

namespace Engine

/-- `DonchianEngine.updateKlineBuffer` (src/unnamed/part_003, lines
612-631): append the candle unconditionally, then keep only the newest
200 (`maxBuffer`). The source has no duplicate-open-time or out-of-order
handling — every candle is appended as-is. -/
def updateKlineBuffer (buffer : List KLine) (kline : KLine) : List KLine :=
  let appended := buffer ++ [kline]
  if 200 < appended.length then appended.drop (appended.length - 200)
  else appended

end Engine

namespace W

/-- Concrete input: an observation at time 100. -/
def p100 : PriceDataPoint := { Price := 1, Timestamp := 100 }

/-- Concrete input: an observation older than `p100`. -/
def p50 : PriceDataPoint := { Price := 2, Timestamp := 50 }

/-- Concrete input: an observation newer than `p100`. -/
def p150 : PriceDataPoint := { Price := 3, Timestamp := 150 }

/-- Concrete input: a lone observation (a one-element window). -/
def pOnly : PriceDataPoint := { Price := 100, Timestamp := 900 }

/-- Concrete input: a candle with open time 100. -/
def kA : KLine :=
  { Symbol := "B", OpenTime := 100, CloseTime := 160, Open := 1, High := 2
    Low := 1, Close := 1, Volume := 1, Interval := "1m" }

/-- Concrete input: a different candle with the same open time as `kA`. -/
def kB : KLine :=
  { Symbol := "B", OpenTime := 100, CloseTime := 160, Open := 1, High := 3
    Low := 1, Close := 2, Volume := 1, Interval := "1m" }

/-- Concrete input: a candle older than `kA`. -/
def kC : KLine :=
  { Symbol := "B", OpenTime := 50, CloseTime := 110, Open := 1, High := 2
    Low := 1, Close := 1, Volume := 1, Interval := "1m" }

/-- Concrete input: a candle newer than `kA`. -/
def kD : KLine :=
  { Symbol := "B", OpenTime := 200, CloseTime := 260, Open := 1, High := 2
    Low := 1, Close := 1, Volume := 1, Interval := "1m" }

/-- Concrete input: a batch of nine risers (change percents 1..9). -/
def c8Batch : List AlertData :=
  (List.range 9).map (fun i =>
    { Symbol := toString i, CurrentPrice := 1, PastPrice := 1
      ChangePercent := (i : ℚ) + 1, AlertTime := 0, MonitorPeriod := 300 })

/-- Concrete input: a Donchian channel spanning 0 to 10. -/
def ch2 : DonchianChannel := { Upper := 10, Lower := 0, Middle := 5 }

/-- Concrete input: a candle closing at 12, strictly above `ch2.Upper`. -/
def k2 : KLine :=
  { Symbol := "P", OpenTime := 0, CloseTime := 60, Open := 9, High := 13
    Low := 9, Close := 12, Volume := 1, Interval := "1m" }

/-- Concrete input: a zero-volume candle (as the stream parser emits). -/
def z1 : KLine :=
  { Symbol := "Z", OpenTime := 0, CloseTime := 60, Open := 5, High := 6
    Low := 4, Close := 5, Volume := 0, Interval := "1m" }

/-- Concrete input: a second zero-volume candle, closing above `ch2`. -/
def z2 : KLine :=
  { Symbol := "Z", OpenTime := 60, CloseTime := 120, Open := 5, High := 13
    Low := 5, Close := 12, Volume := 0, Interval := "1m" }

/-- Concrete input: one flat candle (every bar identical, true range 1). -/
def flatKline (j : ℕ) : KLine :=
  { Symbol := "F", OpenTime := j, CloseTime := j + 1, Open := 1, High := 2
    Low := 1, Close := 1, Volume := 0, Interval := "1m" }

/-- Concrete input: 46 flat candles — every trailing ATR equals 1, the
regression slope is 0, and the current ATR equals the 25th-percentile
element exactly. -/
def klinesFlat : List KLine := (List.range 46).map flatKline

/-- Concrete input: the latest observation of the C3 witness (price
103.5 five minutes after `pst3`). -/
def cur3 : PriceDataPoint := { Price := 207 / 2, Timestamp := 300 }

/-- Concrete input: the past observation of the C3 witness. -/
def pst3 : PriceDataPoint := { Price := 100, Timestamp := 0 }

/-- Concrete input: the alert the C3 witness produces. -/
def a3 : AlertData :=
  { Symbol := "BTC", CurrentPrice := 207 / 2, PastPrice := 100
    ChangePercent := 7 / 2, AlertTime := 300, MonitorPeriod := 300 }

/-- Concrete input: a latest observation whose change is exactly the
threshold (3%). -/
def curEq : PriceDataPoint := { Price := 103, Timestamp := 300 }

/-- Concrete input: the past observation of the exact-threshold case. -/
def pstEq : PriceDataPoint := { Price := 100, Timestamp := 0 }

/-- Concrete input: candle `j` of the C1 witness series — 47 narrowing
candles around 100 followed by a breakout candle closing at 200. -/
def wKline (j : ℕ) : KLine :=
  if j = 47 then
    { Symbol := "W", OpenTime := j, CloseTime := j + 1, Open := 100
      High := 100, Low := 100, Close := 200, Volume := 10, Interval := "1m" }
  else
    { Symbol := "W", OpenTime := j, CloseTime := j + 1, Open := 100
      High := 100 + ((47 - j : ℕ) : ℚ), Low := 100 - ((47 - j : ℕ) : ℚ)
      Close := 100, Volume := 1, Interval := "1m" }

/-- Concrete input: the 48-candle series of the C1 witness. -/
def klines0 : List KLine := (List.range 48).map wKline

/-- Concrete input: a minimal detector configuration (channel length 1,
offset 1, ATR length 1, consolidation over 0 bars, multiplier 1,
minimum strength 0). -/
def cfg0 : DonchianConfig :=
  { DonchianLength := 1, DonchianOffset := 1, ATRLength := 1
    ConsolidationBars := 0, VolumeMultiplier := 1, MinSignalStrength := 0 }

/-- Concrete output: the signal `DetectSignal cfg0 "W" klines0` emits. -/
def sig0 : TradingSignal :=
  { Symbol := "W", SignalType := "LONG", Price := 200, Volume := 10
    VolumeRatio := 10, DonchianUpper := 101, ATRValue := 0
    ConsolidationBars := 0, SignalStrength := 75, SignalTime := 48 }

/-- Concrete input: an analysis event for `sym` at time `t` whose pair
moved 10% (well past any small threshold). -/
def evA (sym : String) (t : ℤ) : Analyzer.AnalyzeEvent :=
  { Symbol := sym, Now := t, Current := some { Price := 110, Timestamp := t }
    Past := some { Price := 100, Timestamp := t - 300 } }

/-- Concrete input: the C4 counterexample trace — "s" alerts at 0; "s2"
alerts at 5400, pruning the hour-old ledger entry of "s"; "s" alerts
again at 5460. -/
def cexEvents : List Analyzer.AnalyzeEvent :=
  [evA "s" 0, evA "s2" 5400, evA "s" 5460]

end W

/-! ## Theorems -/

/-- C6 (counterexample): the claim "a put whose timestamp is older than
the window's current back is ignored" is false — `CircularQueue.Add`
appends the stale point: the window changes and loses its timestamp
order. -/
theorem add_out_of_order_changes_window :
    Storage.CircularQueue.Add 300 100 [W.p100] W.p50 = [W.p100, W.p50] ∧
    W.p50.Timestamp < W.p100.Timestamp ∧
    Storage.CircularQueue.Add 300 100 [W.p100] W.p50 ≠ [W.p100] ∧
    ¬ List.Pairwise (fun a b => a.Timestamp ≤ b.Timestamp)
        (Storage.CircularQueue.Add 300 100 [W.p100] W.p50) := by
  with_unfolding_all decide

/-- C6 (amended): `CircularQueue.Add` always appends the new point —
stale puts included — and then drops a prefix (the entries at or before
`now - maxAge` up to the first younger one), so the result is always a
suffix of `data ++ [point]`; the window therefore stays ordered
non-decreasing by timestamp only when puts arrive in non-decreasing
timestamp order. -/
theorem add_keeps_order_only_for_inorder_puts (maxAge now : ℤ)
    (data : List PriceDataPoint) (point : PriceDataPoint) :
    (∃ k, Storage.CircularQueue.Add maxAge now data point = (data ++ [point]).drop k) ∧
    (List.Pairwise (fun a b => a.Timestamp ≤ b.Timestamp) data →
      (∀ q ∈ data, q.Timestamp ≤ point.Timestamp) →
      List.Pairwise (fun a b => a.Timestamp ≤ b.Timestamp)
        (Storage.CircularQueue.Add maxAge now data point)) := by
  constructor
  · exact ⟨_, rfl⟩
  · intro hsort hle
    have hall : List.Pairwise (fun a b => a.Timestamp ≤ b.Timestamp)
        (data ++ [point]) := by
      rw [List.pairwise_append]
      refine ⟨hsort, List.pairwise_singleton _ _, ?_⟩
      intro a ha b hb
      rw [List.mem_singleton] at hb
      subst hb
      exact hle a ha
    exact hall.sublist (List.drop_sublist _ _)

/-- C6 (witness for the amended theorem): an in-order put on a sorted
one-element window keeps the window sorted. -/
theorem add_keeps_order_witness :
    List.Pairwise (fun a b => a.Timestamp ≤ b.Timestamp)
      (Storage.CircularQueue.Add 300 200 [W.p100] W.p150) :=
  (add_keeps_order_only_for_inorder_puts 300 200 [W.p100] W.p150).2
    (by with_unfolding_all decide) (by with_unfolding_all decide)

/-- C7 (counterexample): the claims "duplicate-open-time candles
overwrite (the buffer length does not grow)" and "out-of-order arrivals
are dropped (buffer unchanged)" are both false — `updateKlineBuffer`
appends a duplicate-open-time candle (length grows from 1 to 2) and
appends an out-of-order candle (the buffer changes). -/
theorem updateKlineBuffer_no_overwrite_no_drop :
    Engine.updateKlineBuffer [W.kA] W.kB = [W.kA, W.kB] ∧
    W.kB.OpenTime = W.kA.OpenTime ∧
    (Engine.updateKlineBuffer [W.kA] W.kB).length = 2 ∧
    Engine.updateKlineBuffer [W.kA] W.kC = [W.kA, W.kC] ∧
    W.kC.OpenTime < W.kA.OpenTime ∧
    Engine.updateKlineBuffer [W.kA] W.kC ≠ [W.kA] := by
  with_unfolding_all decide

/-- C7 (amended): the buffer never holds more than 200 candles after an
append, and each append yields a suffix of the old buffer plus the new
candle (the newest 200); duplicates and out-of-order candles are
appended like any other, so strictly-increasing open-time order is an
invariant only of strictly-increasing arrivals. -/
theorem updateKlineBuffer_bound_and_order (buffer : List KLine) (kline : KLine) :
    (Engine.updateKlineBuffer buffer kline).length ≤ 200 ∧
    (∃ k, Engine.updateKlineBuffer buffer kline = (buffer ++ [kline]).drop k) ∧
    (List.Pairwise (fun a b => a.OpenTime < b.OpenTime) buffer →
      (∀ q ∈ buffer, q.OpenTime < kline.OpenTime) →
      List.Pairwise (fun a b => a.OpenTime < b.OpenTime)
        (Engine.updateKlineBuffer buffer kline)) := by
  have hsuf : ∃ k, Engine.updateKlineBuffer buffer kline = (buffer ++ [kline]).drop k := by
    simp only [Engine.updateKlineBuffer]
    by_cases h : 200 < (buffer ++ [kline]).length
    · exact ⟨(buffer ++ [kline]).length - 200, by rw [if_pos h]⟩
    · exact ⟨0, by rw [if_neg h, List.drop_zero]⟩
  obtain ⟨k, hk⟩ := hsuf
  refine ⟨?_, ⟨k, hk⟩, ?_⟩
  · unfold Engine.updateKlineBuffer
    by_cases h : 200 < (buffer ++ [kline]).length
    · simp only [if_pos h, List.length_drop]
      omega
    · simp only [if_neg h]
      omega
  · intro hsort hlt
    have hall : List.Pairwise (fun a b => a.OpenTime < b.OpenTime)
        (buffer ++ [kline]) := by
      rw [List.pairwise_append]
      refine ⟨hsort, List.pairwise_singleton _ _, ?_⟩
      intro a ha b hb
      rw [List.mem_singleton] at hb
      subst hb
      exact hlt a ha
    rw [hk]
    exact hall.sublist (List.drop_sublist _ _)

/-- C7 (witness for the amended theorem): appending a strictly newer
candle to a strictly-increasing one-element buffer keeps it strictly
increasing. -/
theorem updateKlineBuffer_order_witness :
    List.Pairwise (fun a b => a.OpenTime < b.OpenTime)
      (Engine.updateKlineBuffer [W.kA] W.kD) :=
  (updateKlineBuffer_bound_and_order [W.kA] W.kD).2.2
    (by with_unfolding_all decide) (by with_unfolding_all decide)

/-- The scan of `FindPriceAroundTime` pairs the current closest entry
with its exact distance to the target, and any entry it produces comes
from the scanned list (or was already in the accumulator). -/
theorem foldl_findStep_inv (targetTime : ℤ) (l : List PriceDataPoint) :
    ∀ (acc : ℤ × Option PriceDataPoint),
      (∀ q, acc.2 = some q → acc.1 = |targetTime - q.Timestamp|) →
      ∀ p, (l.foldl (Storage.findStep targetTime) acc).2 = some p →
        (l.foldl (Storage.findStep targetTime) acc).1 = |targetTime - p.Timestamp| ∧
          (p ∈ l ∨ acc.2 = some p) := by
  induction l with
  | nil =>
    intro acc hacc p hp
    exact ⟨hacc p hp, Or.inr hp⟩
  | cons x xs ih =>
    intro acc hacc p hp
    rw [List.foldl_cons] at hp ⊢
    by_cases hlt : |targetTime - x.Timestamp| < acc.1
    · have hstep : Storage.findStep targetTime acc x
          = (|targetTime - x.Timestamp|, some x) := by
        simp only [Storage.findStep]
        rw [if_pos hlt]
      rw [hstep] at hp ⊢
      have hacc2 : ∀ q,
          ((|targetTime - x.Timestamp|, some x) : ℤ × Option PriceDataPoint).2 = some q →
          ((|targetTime - x.Timestamp|, some x) : ℤ × Option PriceDataPoint).1
            = |targetTime - q.Timestamp| := by
        intro q hq
        obtain rfl : x = q := by simpa using hq
        rfl
      obtain ⟨h1, h2⟩ := ih _ hacc2 p hp
      refine ⟨h1, Or.inl ?_⟩
      rcases h2 with h | h
      · exact List.mem_cons_of_mem _ h
      · obtain rfl : x = p := by simpa using h
        exact List.mem_cons_self _ _
    · have hstep : Storage.findStep targetTime acc x = acc := by
        simp only [Storage.findStep]
        rw [if_neg hlt]
      rw [hstep] at hp ⊢
      obtain ⟨h1, h2⟩ := ih _ hacc p hp
      refine ⟨h1, ?_⟩
      rcases h2 with h | h
      · exact Or.inl (List.mem_cons_of_mem _ h)
      · exact Or.inr h

/-- `FindPriceAroundTime` returns only entries of the window that lie
within the accepted two-minute drift of the target. -/
theorem findPriceAroundTime_mem (data : List PriceDataPoint) (targetTime : ℤ)
    (p : PriceDataPoint)
    (h : Storage.CircularQueue.FindPriceAroundTime data targetTime = some p) :
    p ∈ data ∧ |targetTime - p.Timestamp| ≤ 120 := by
  simp only [Storage.CircularQueue.FindPriceAroundTime] at h
  by_cases hlen : data.length < 2
  · rw [if_pos hlen] at h
    exact absurd h (by simp)
  · rw [if_neg hlen] at h
    by_cases hd : 120 < (data.foldl (Storage.findStep targetTime) ((2:ℤ)^63, none)).1
    · rw [if_pos hd] at h
      exact absurd h (by simp)
    · rw [if_neg hd] at h
      obtain ⟨h1, h2⟩ := foldl_findStep_inv targetTime data ((2:ℤ)^63, none)
        (by intro q hq; simp at hq) p h
      rcases h2 with hm | hm
      · exact ⟨hm, by rw [← h1]; omega⟩
      · simp at hm

/-- C5 (amended): with insufficient data the *past* component of the
pair is null — `GetPriceData` returns `past = none` whenever the window
has fewer than two observations or no observation lies within the
accepted two-minute drift of `now - windowSize`; both components are
null exactly when the window is empty (the source returns
`(latest, nil)`, not `(nil, nil)`, for a non-empty window with
insufficient history). -/
theorem getPriceData_insufficient (windowSize now : ℤ)
    (data : List PriceDataPoint)
    (h : data.length < 2 ∨ ∀ p ∈ data, 120 < |now - windowSize - p.Timestamp|) :
    (Storage.StateManager.GetPriceData windowSize now (some data)).2 = none ∧
    ((Storage.StateManager.GetPriceData windowSize now (some data)).1 = none
      ↔ data = []) := by
  simp only [Storage.StateManager.GetPriceData, Storage.CircularQueue.GetLatest]
  cases hl : data.getLast? with
  | none =>
    simp only [List.getLast?_eq_none_iff] at hl
    simp [hl]
  | some current =>
    have hne : data ≠ [] := by
      intro hd
      rw [hd] at hl
      exact absurd hl (by simp)
    refine ⟨?_, by simp [hne]⟩
    cases hf : Storage.CircularQueue.FindPriceAroundTime data (now - windowSize) with
    | none => simp
    | some p =>
      exfalso
      obtain ⟨hmem, hclose⟩ := findPriceAroundTime_mem data (now - windowSize) p hf
      rcases h with hlen | hfar
      · have : ¬ data.length < 2 := by
          simp only [Storage.CircularQueue.FindPriceAroundTime] at hf
          by_contra hc
          rw [if_pos hc] at hf
          exact absurd hf (by simp)
        exact this hlen
      · exact absurd hclose (by have := hfar p hmem; omega)

/-- C5 (counterexample): a window holding exactly one observation is
insufficient data (fewer than two observations), yet `GetPriceData`
returns `(latest, nil)` with a non-null latest — not `(null, null)` as
claimed. -/
theorem getPriceData_single_not_null_null :
    ([W.pOnly] : List PriceDataPoint).length < 2 ∧
    (Storage.StateManager.GetPriceData 300 1000 (some [W.pOnly])).2 = none ∧
    (Storage.StateManager.GetPriceData 300 1000 (some [W.pOnly])).1
      = some W.pOnly := by
  with_unfolding_all decide

/-- C5 (witness for the amended theorem): a two-entry window whose
observations both miss `now - windowSize` by more than two minutes
yields a null past and a non-null latest. -/
theorem getPriceData_insufficient_witness :
    (Storage.StateManager.GetPriceData 300 1000 (some [W.p100, W.p150])).2 = none ∧
    ((Storage.StateManager.GetPriceData 300 1000 (some [W.p100, W.p150])).1 = none
      ↔ ([W.p100, W.p150] : List PriceDataPoint) = []) :=
  getPriceData_insufficient 300 1000 [W.p100, W.p150]
    (Or.inr (by with_unfolding_all decide))

/-- The structure of the rendered batch rows, for an arbitrary per-group
cap: sorted risers first, sorted fallers second, each group truncated to
the cap. -/
theorem batchRows_spec (cap : ℕ) (alerts : List AlertData) :
    ∃ ups downs,
      Notifier.batchRows cap alerts = ups ++ downs ∧
      ups.length = min (Notifier.upAlerts alerts).length cap ∧
      downs.length = min (Notifier.downAlerts alerts).length cap ∧
      List.Pairwise Notifier.byPercentDesc ups ∧
      List.Pairwise Notifier.byPercentAsc downs ∧
      (∀ a ∈ ups, 0 < a.ChangePercent) ∧
      (∀ a ∈ downs, ¬ 0 < a.ChangePercent) := by
  refine ⟨_, _, rfl, ?_, ?_, ?_, ?_, ?_, ?_⟩
  · rw [List.length_take]
    have hp := (List.perm_insertionSort Notifier.byPercentDesc
      (Notifier.upAlerts alerts)).length_eq
    omega
  · rw [List.length_take]
    have hp := (List.perm_insertionSort Notifier.byPercentAsc
      (Notifier.downAlerts alerts)).length_eq
    omega
  · exact List.Pairwise.sublist (List.take_sublist _ _)
      (List.sorted_insertionSort _ _)
  · exact List.Pairwise.sublist (List.take_sublist _ _)
      (List.sorted_insertionSort _ _)
  · intro a ha
    have h1 := List.mem_of_mem_take ha
    have h2 := (List.perm_insertionSort Notifier.byPercentDesc
      (Notifier.upAlerts alerts)).mem_iff.1 h1
    simp only [Notifier.upAlerts, List.mem_filter] at h2
    exact of_decide_eq_true h2.2
  · intro a ha
    have h1 := List.mem_of_mem_take ha
    have h2 := (List.perm_insertionSort Notifier.byPercentAsc
      (Notifier.downAlerts alerts)).mem_iff.1 h1
    simp only [Notifier.downAlerts, List.mem_filter, Bool.not_eq_eq_eq_not,
      Bool.not_true] at h2
    intro hc
    exact absurd h2.2 (by simp [hc])

/-- C8 (counterexample): for the signed-webhook (DingTalk) remote
back-end, the per-group cap is 8, not 10: a batch of nine risers renders
only eight rows (the ninth falls into the summary line), although a cap
of 10 would list all nine. (The token-push back-end does cap at 10 and
lists all nine.) -/
theorem dingTalkBatchRows_cap_is_8 :
    W.c8Batch.length = 9 ∧
    (∀ a ∈ W.c8Batch, 0 < a.ChangePercent) ∧
    (Notifier.dingTalkBatchRows W.c8Batch).length = 8 ∧
    (Notifier.pushPlusBatchRows W.c8Batch).length = 9 := by
  with_unfolding_all decide

/-- C8 (amended): every rendered batch body partitions the alerts into
risers (changePercent > 0) sorted descending followed by fallers sorted
ascending by signed percent; each group is capped at 10 rows for the
token-push back-end but at 8 rows for the signed-webhook back-end
(alerts beyond the cap are summarised, not listed). -/
theorem batchRows_partition_sorted (alerts : List AlertData) :
    (∃ ups downs,
      Notifier.dingTalkBatchRows alerts = ups ++ downs ∧
      ups.length = min (Notifier.upAlerts alerts).length 8 ∧
      downs.length = min (Notifier.downAlerts alerts).length 8 ∧
      List.Pairwise Notifier.byPercentDesc ups ∧
      List.Pairwise Notifier.byPercentAsc downs ∧
      (∀ a ∈ ups, 0 < a.ChangePercent) ∧
      (∀ a ∈ downs, ¬ 0 < a.ChangePercent)) ∧
    (∃ ups downs,
      Notifier.pushPlusBatchRows alerts = ups ++ downs ∧
      ups.length = min (Notifier.upAlerts alerts).length 10 ∧
      downs.length = min (Notifier.downAlerts alerts).length 10 ∧
      List.Pairwise Notifier.byPercentDesc ups ∧
      List.Pairwise Notifier.byPercentAsc downs ∧
      (∀ a ∈ ups, 0 < a.ChangePercent) ∧
      (∀ a ∈ downs, ¬ 0 < a.ChangePercent)) :=
  ⟨batchRows_spec 8 alerts, batchRows_spec 10 alerts⟩

/-- C2 (code defect): because `GetDonchianPosition` clamps the channel
position into `[0, 1]`, `calculatePositionStrength` is identically 0 on
every breakout candle — `(position-1)*200` evaluates at the clamped
position 1 above the band, and `(0-position)*200` at the clamped
position 0 below it — although the surrounding comments and the spec
describe a factor that grows with the overshoot. -/
theorem positionStrength_always_zero (k : KLine) (ch : DonchianChannel)
    (hne : ch.Lower < ch.Upper) :
    (ch.Upper < k.Close → Signals.calculatePositionStrength k ch = 0) ∧
    (k.Close < ch.Lower → Signals.calculatePositionStrength k ch = 0) := by
  have hul : (0 : ℚ) < ch.Upper - ch.Lower := by linarith
  have hne2 : ¬ ch.Upper = ch.Lower := by
    intro h
    rw [h] at hne
    exact lt_irrefl _ hne
  constructor
  · intro hc
    have hpos : 1 < (k.Close - ch.Lower) / (ch.Upper - ch.Lower) := by
      rw [one_lt_div hul]
      linarith
    simp only [Signals.calculatePositionStrength,
      Indicators.DonchianCalculator.GetDonchianPosition]
    rw [if_neg hne2, if_neg (by linarith :
        ¬ (k.Close - ch.Lower) / (ch.Upper - ch.Lower) < 0),
      if_pos hpos, if_pos hc]
    ring
  · intro hc
    have hneg : (k.Close - ch.Lower) / (ch.Upper - ch.Lower) < 0 :=
      div_neg_of_neg_of_pos (by linarith) hul
    simp only [Signals.calculatePositionStrength,
      Indicators.DonchianCalculator.GetDonchianPosition]
    rw [if_neg hne2, if_pos hneg, if_neg (by linarith : ¬ ch.Upper < k.Close),
      if_pos hc]
    ring

/-- C2 (witness): at the channel `[0, 10]` and close 12 the code's
position factor is 0, while the claimed formula
`((close - lower)/(upper - lower) - 1) * 200` gives 40. -/
theorem positionStrength_always_zero_witness :
    Signals.calculatePositionStrength W.k2 W.ch2 = 0 ∧
    ((W.k2.Close - W.ch2.Lower) / (W.ch2.Upper - W.ch2.Lower) - 1) * 200 = 40 :=
  ⟨(positionStrength_always_zero W.k2 W.ch2 (by with_unfolding_all decide)).1
      (by with_unfolding_all decide),
    by with_unfolding_all decide⟩

/-- C10: a zero previous volume makes the volume confirmation vacuous.
When the second-to-last candle's volume is 0 — as for every candle built
by the stream parser or the historical fetcher, which hard-code
volume 0 — and the latest volume is nonnegative, the gate
`current.Volume ≥ previous.Volume * multiplier` holds for every
multiplier, `IsValidBreakout` does not depend on the multiplier at all,
and the stream parser indeed always yields volume 0. -/
theorem volumeGate_vacuous (klines : List KLine) (ch : DonchianChannel)
    (hprev : (klines.getD (klines.length - 2) kZero).Volume = 0)
    (hcur : 0 ≤ (klines.getD (klines.length - 1) kZero).Volume) :
    (∀ m : ℚ, (klines.getD (klines.length - 2) kZero).Volume * m
        ≤ (klines.getD (klines.length - 1) kZero).Volume) ∧
    (∀ m1 m2 : ℚ,
      Indicators.DonchianCalculator.IsValidBreakout klines (some ch) m1
        = Indicators.DonchianCalculator.IsValidBreakout klines (some ch) m2) ∧
    (∀ (sym : String) (ts : ℤ) (o h l c : ℚ) (iv : String) (d : ℤ),
      (Websocket.parseOKXKlineData sym ts o h l c iv d).Volume = 0) := by
  refine ⟨?_, ?_, fun _ _ _ _ _ _ _ _ => rfl⟩
  · intro m
    rw [hprev, zero_mul]
    exact hcur
  · intro m1 m2
    by_cases hlen : klines.length < 2
    · simp [Indicators.DonchianCalculator.IsValidBreakout, hlen]
    · rcases hbr : Indicators.DonchianCalculator.CalculateBreakout klines (some ch)
        with ⟨b, dir⟩
      simp only [Indicators.DonchianCalculator.IsValidBreakout, if_neg hlen, hbr]
      cases b
      · rfl
      · have h0 : ∀ m : ℚ,
            decide ((klines.getD (klines.length - 2) kZero).Volume * m
              ≤ (klines.getD (klines.length - 1) kZero).Volume) = true := by
          intro m
          rw [hprev, zero_mul]
          exact decide_eq_true hcur
        rw [h0 m1, h0 m2]

/-- C10 (witness): on a concrete zero-volume candle pair the gate holds
at multiplier 3 and the breakout verdict agrees between multipliers 3
and 7. -/
theorem volumeGate_vacuous_witness :
    (([W.z1, W.z2] : List KLine).getD
        (([W.z1, W.z2] : List KLine).length - 2) kZero).Volume * 3
      ≤ (([W.z1, W.z2] : List KLine).getD
        (([W.z1, W.z2] : List KLine).length - 1) kZero).Volume ∧
    Indicators.DonchianCalculator.IsValidBreakout [W.z1, W.z2] (some W.ch2) 3
      = Indicators.DonchianCalculator.IsValidBreakout [W.z1, W.z2] (some W.ch2) 7 :=
  ⟨(volumeGate_vacuous [W.z1, W.z2] W.ch2 (by with_unfolding_all decide)
      (by with_unfolding_all decide)).1 3,
    (volumeGate_vacuous [W.z1, W.z2] W.ch2 (by with_unfolding_all decide)
      (by with_unfolding_all decide)).2.1 3 7⟩

/-- C3: every alert the analyzer produces for a symbol with data carries
`changePercent = (current - past)/past * 100` and satisfies
`|changePercent| > threshold` strictly; a change whose magnitude equals
the threshold exactly produces no alert. -/
theorem analyzeSymbol_threshold_strict (threshold : ℚ) (monitorPeriod now : ℤ)
    (hist : Analyzer.AlertHistory) (symbol : String)
    (cur pst : PriceDataPoint) :
    (∀ a, (Analyzer.analyzeSymbol threshold monitorPeriod now hist symbol
        (some cur) (some pst)).1 = some a →
      a.ChangePercent = (cur.Price - pst.Price) / pst.Price * 100 ∧
      threshold < |a.ChangePercent|) ∧
    (|(cur.Price - pst.Price) / pst.Price * 100| = threshold →
      (Analyzer.analyzeSymbol threshold monitorPeriod now hist symbol
        (some cur) (some pst)).1 = none) := by
  have habs : ∀ x : ℚ, (if x < 0 then -x else x) = |x| := by
    intro x
    split_ifs with hx
    · exact (abs_of_neg hx).symm
    · exact (abs_of_nonneg (le_of_not_lt hx)).symm
  constructor
  · intro a h
    simp only [Analyzer.analyzeSymbol, habs] at h
    by_cases h1 : threshold < |(cur.Price - pst.Price) / pst.Price * 100|
    · rw [if_pos h1] at h
      by_cases h2 : Analyzer.shouldAlert monitorPeriod now hist symbol = true
      · rw [if_pos h2] at h
        obtain rfl := Option.some.inj h
        exact ⟨rfl, h1⟩
      · rw [if_neg h2] at h
        exact absurd h (by simp)
    · rw [if_neg h1] at h
      exact absurd h (by simp)
  · intro heq
    simp only [Analyzer.analyzeSymbol, habs]
    rw [if_neg (by rw [heq]; exact lt_irrefl threshold)]

/-- C3 (witness): at threshold 3, a 3.5% move produces the alert with
`changePercent = 3.5 > 3`, and an exactly-3% move produces no alert. -/
theorem analyzeSymbol_threshold_witness :
    (W.a3.ChangePercent = (W.cur3.Price - W.pst3.Price) / W.pst3.Price * 100 ∧
      (3 : ℚ) < |W.a3.ChangePercent|) ∧
    (Analyzer.analyzeSymbol 3 300 300 Analyzer.emptyHistory "BTC"
      (some W.curEq) (some W.pstEq)).1 = none :=
  ⟨(analyzeSymbol_threshold_strict 3 300 300 Analyzer.emptyHistory "BTC"
      W.cur3 W.pst3).1 W.a3 (by with_unfolding_all rfl),
    (analyzeSymbol_threshold_strict 3 300 300 Analyzer.emptyHistory "BTC"
      W.curEq W.pstEq).2 (by with_unfolding_all rfl)⟩

/-- One true range per adjacent candle pair. -/
theorem calculateTrueRange_length :
    ∀ l : List KLine, (Indicators.calculateTrueRange l).length = l.length - 1
  | [] => rfl
  | [_] => rfl
  | a :: b :: rest => by
    simp only [Indicators.calculateTrueRange, List.length_cons]
    rw [calculateTrueRange_length (b :: rest)]
    simp

/-- A filterMap by an everywhere-defined function keeps the length. -/
theorem length_filterMap_of_isSome {α β : Type} (f : α → Option β) :
    ∀ l : List α, (∀ x ∈ l, ∃ v, f x = some v) →
      (l.filterMap f).length = l.length := by
  intro l
  induction l with
  | nil => intro _; rfl
  | cons a as ih =>
    intro hall
    obtain ⟨v, hv⟩ := hall a (List.mem_cons_self _ _)
    rw [List.filterMap_cons, hv]
    simp only [List.length_cons]
    rw [ih (fun x hx => hall x (List.mem_cons_of_mem _ hx))]

/-- Inside the guarded range, each iteration of the 45-bar ATR walk
contributes a value. -/
theorem atrWindowValue_isSome (length : ℕ) (klines : List KLine)
    (i : ℕ) (hi1 : length ≤ i) (hi2 : i + 1 ≤ klines.length) :
    ∃ v, Indicators.atrWindowValue length klines i = some v := by
  simp only [Indicators.atrWindowValue]
  rw [if_neg (by omega : ¬ i < length)]
  have hwin : ((klines.drop (i - length)).take (length + 1)).length
      = length + 1 := by
    rw [List.length_take, List.length_drop]
    omega
  have htr : (Indicators.calculateTrueRange
      ((klines.drop (i - length)).take (length + 1))).length = length := by
    rw [calculateTrueRange_length, hwin]
    omega
  rw [if_pos (le_of_eq htr.symm)]
  exact ⟨_, rfl⟩

/-- With `45 + length` bars available, the trailing walk yields exactly
45 ATR values. -/
theorem trailingATRValues_length (length : ℕ)
    (klines : List KLine) (h45 : 45 + length ≤ klines.length) :
    (Indicators.trailingATRValues length klines).length = 45 := by
  simp only [Indicators.trailingATRValues]
  rw [length_filterMap_of_isSome]
  · rw [List.length_map, List.length_range]
  · intro x hx
    obtain ⟨j, hj, rfl⟩ := List.mem_map.1 hx
    rw [List.mem_range] at hj
    exact atrWindowValue_isSome length klines _ (by omega) (by omega)

/-- C9: given enough bars for the 45 trailing ATRs, the ATR-decreasing
gate is true iff the regression slope is negative or the current ATR is
at most the 25th-percentile element (index `⌊45/4⌋ = 11` of the
ascending sort) of the 45 trailing ATRs; in particular equality with
that element passes the gate even at nonnegative slope. -/
theorem isATRDecreasing_iff (length : ℕ) (klines : List KLine)
    (h45 : 45 + length ≤ klines.length) (atrData : ATRData) :
    Indicators.IsATRDecreasing length (some atrData) klines = true ↔
      (atrData.Slope < 0 ∨
        atrData.Value ≤ (List.insertionSort (· ≤ ·)
          (Indicators.trailingATRValues length klines)).getD 11 0) := by
  have hlen45 := trailingATRValues_length length klines h45
  have hsortlen : (List.insertionSort (· ≤ ·)
      (Indicators.trailingATRValues length klines)).length = 45 := by
    rw [(List.perm_insertionSort _ _).length_eq, hlen45]
  simp only [Indicators.IsATRDecreasing]
  by_cases hs : atrData.Slope < 0
  · rw [if_pos hs]
    simp [hs]
  · rw [if_neg hs]
    simp only [Indicators.isATRInLowestQuartile]
    rw [if_neg (by omega : ¬ klines.length < 45 + length),
      if_neg (by rw [hlen45]; omega :
        ¬ (Indicators.trailingATRValues length klines).length < 4),
      hsortlen]
    norm_num
    simp [hs]

/-- C9 (witness): on 46 flat candles every trailing ATR is 1, the slope
is 0 (not negative), and the current ATR of 1 equals the
25th-percentile element exactly — the gate is true. -/
theorem isATRDecreasing_iff_witness :
    (Indicators.IsATRDecreasing 1 (some { Value := 1, Slope := 0 })
        W.klinesFlat = true ↔
      (({ Value := 1, Slope := 0 } : ATRData).Slope < 0 ∨
        ({ Value := 1, Slope := 0 } : ATRData).Value ≤
          (List.insertionSort (· ≤ ·)
            (Indicators.trailingATRValues 1 W.klinesFlat)).getD 11 0)) ∧
    Indicators.IsATRDecreasing 1 (some { Value := 1, Slope := 0 })
      W.klinesFlat = true :=
  ⟨isATRDecreasing_iff 1 W.klinesFlat (by with_unfolding_all decide) _,
    by with_unfolding_all rfl⟩

/-- The last element of a nonempty list, as the unguarded Go indexing
`l[len(l)-1]` reads it. -/
theorem getLast?_eq_getD {α : Type} (l : List α) (d : α) (h : l ≠ []) :
    l.getLast? = some (l.getD (l.length - 1) d) := by
  rw [List.getLast?_eq_getElem?, List.getD_eq_getElem?_getD]
  have hlen : l.length - 1 < l.length := by
    cases l with
    | nil => exact absurd rfl h
    | cons a as => simp
  rw [List.getElem?_eq_getElem hlen]
  rfl

/-- A breakout verdict comes with its direction: `(true, dir)` forces
the latest candle to satisfy the matching close/open inequalities. -/
theorem calculateBreakout_true (klines : List KLine) (ch : DonchianChannel)
    (direction : String)
    (h : Indicators.DonchianCalculator.CalculateBreakout klines (some ch)
      = (true, direction)) :
    ∃ latest, klines.getLast? = some latest ∧
      ((direction = "LONG" ∧ ch.Upper < latest.Close ∧
          latest.Open < latest.Close) ∨
        (direction = "SHORT" ∧ latest.Close < ch.Lower ∧
          latest.Close < latest.Open)) := by
  cases hl : klines.getLast? with
  | none =>
    simp only [Indicators.DonchianCalculator.CalculateBreakout, hl] at h
    simp at h
  | some latest =>
    simp only [Indicators.DonchianCalculator.CalculateBreakout, hl] at h
    refine ⟨latest, rfl, ?_⟩
    by_cases h1 : ch.Upper < latest.Close ∧ latest.Open < latest.Close
    · rw [if_pos h1] at h
      obtain ⟨-, hd⟩ := Prod.mk.inj h
      exact Or.inl ⟨hd.symm, h1⟩
    · rw [if_neg h1] at h
      by_cases h2 : latest.Close < ch.Lower ∧ latest.Close < latest.Open
      · rw [if_pos h2] at h
        obtain ⟨-, hd⟩ := Prod.mk.inj h
        exact Or.inr ⟨hd.symm, h2⟩
      · rw [if_neg h2] at h
        obtain ⟨hfalse, -⟩ := Prod.mk.inj h
        exact absurd hfalse (by simp)

/-- C1: every signal the detector returns has strength at least the
configured minimum, its price is the latest candle's close, and its
direction obeys the breakout rule against the detector's Donchian
channel — LONG only with `close > upper ∧ close > open`, SHORT only
with `close < lower ∧ close < open`. -/
theorem detectSignal_invariants (cfg : DonchianConfig) (symbol : String)
    (klines : List KLine) (sig : TradingSignal)
    (h : Signals.DetectSignal cfg symbol klines = some sig) :
    cfg.MinSignalStrength ≤ sig.SignalStrength ∧
    ∃ latest ch, klines.getLast? = some latest ∧
      Indicators.DonchianCalculator.Calculate cfg.DonchianLength
        cfg.DonchianOffset klines = some ch ∧
      sig.Price = latest.Close ∧
      (sig.SignalType = "LONG" →
        ch.Upper < latest.Close ∧ latest.Open < latest.Close) ∧
      (sig.SignalType = "SHORT" →
        latest.Close < ch.Lower ∧ latest.Close < latest.Open) := by
  simp only [Signals.DetectSignal] at h
  split at h
  · simp at h
  next hreq =>
    split at h
    · simp at h
    next hcons =>
      split at h
      · simp at h
      next atrData hatr =>
        split at h
        · simp at h
        next hdec =>
          split at h
          · simp at h
          next channel hch =>
            split at h
            · simp at h
            next direction hbr =>
              split at h
              · simp at h
              next hvalid =>
                split at h
                next hstr => simp at h
                next hstr =>
                  obtain rfl := Option.some.inj h
                  have hlen : 45 ≤ klines.length := by
                    simp only [Signals.getRequiredBars] at hreq
                    omega
                  have hne : klines ≠ [] := by
                    intro he
                    rw [he] at hlen
                    simp at hlen
                  obtain ⟨latest, hlast, hdir⟩ :=
                    calculateBreakout_true klines channel direction hbr
                  have hlatest : latest = klines.getD (klines.length - 1) kZero := by
                    have hg := getLast?_eq_getD klines kZero hne
                    rw [hlast] at hg
                    exact Option.some.inj hg
                  refine ⟨not_lt.1 hstr, latest, channel, hlast, hch, ?_, ?_, ?_⟩
                  · rw [hlatest]
                  · intro hSL
                    rcases hdir with ⟨hd, hcl⟩ | ⟨hd, hcl⟩
                    · exact hcl
                    · exact absurd (hSL.symm.trans hd) (by simp)
                  · intro hSS
                    rcases hdir with ⟨hd, hcl⟩ | ⟨hd, hcl⟩
                    · exact absurd (hSS.symm.trans hd) (by simp)
                    · exact hcl

/-- C1 (witness): the detector fires a LONG signal on the 48-candle
witness series, with strength 75 ≥ 0 and price 200, the breakout
candle's close. -/
theorem detectSignal_invariants_witness :
    W.cfg0.MinSignalStrength ≤ W.sig0.SignalStrength ∧
    ∃ latest ch, W.klines0.getLast? = some latest ∧
      Indicators.DonchianCalculator.Calculate W.cfg0.DonchianLength
        W.cfg0.DonchianOffset W.klines0 = some ch ∧
      W.sig0.Price = latest.Close ∧
      (W.sig0.SignalType = "LONG" →
        ch.Upper < latest.Close ∧ latest.Open < latest.Close) ∧
      (W.sig0.SignalType = "SHORT" →
        latest.Close < ch.Lower ∧ latest.Close < latest.Open) :=
  detectSignal_invariants W.cfg0 "W" W.klines0 W.sig0
    (by with_unfolding_all rfl)

/-- Recording an alert leaves the fresh ledger entry in place. -/
theorem recordAlert_self (now : ℤ) (hist : Analyzer.AlertHistory)
    (sym : String) :
    Analyzer.recordAlert now hist sym sym = some now := by
  have h1 : ¬ now < now - 3600 := by omega
  simp [Analyzer.recordAlert, h1]

/-- Recording an alert for another symbol cannot create an entry for
`s`. -/
theorem recordAlert_other_none (now : ℤ) (hist : Analyzer.AlertHistory)
    (sym s : String) (hne : s ≠ sym) (hh : hist s = none) :
    Analyzer.recordAlert now hist sym s = none := by
  simp only [Analyzer.recordAlert]
  rw [if_neg (by simp [hne] : ¬ (s == sym) = true), hh]

/-- Recording an alert for another symbol only prunes: the entry of `s`
survives iff it is not older than one hour. -/
theorem recordAlert_other_some (now : ℤ) (hist : Analyzer.AlertHistory)
    (sym s : String) (t1 : ℤ) (hne : s ≠ sym) (hh : hist s = some t1) :
    Analyzer.recordAlert now hist sym s
      = if t1 < now - 3600 then none else some t1 := by
  simp only [Analyzer.recordAlert]
  rw [if_neg (by simp [hne] : ¬ (s == sym) = true), hh]

/-- `analyzeSymbol` either emits nothing and leaves the ledger alone, or
emits an alert stamped with the symbol and the current time after a
positive `shouldAlert`, recording it. -/
theorem analyzeSymbol_cases (threshold : ℚ) (mp now : ℤ)
    (hist : Analyzer.AlertHistory) (symbol : String)
    (cur pst : Option PriceDataPoint) :
    ((Analyzer.analyzeSymbol threshold mp now hist symbol cur pst).1 = none ∧
      (Analyzer.analyzeSymbol threshold mp now hist symbol cur pst).2 = hist) ∨
    (∃ a, (Analyzer.analyzeSymbol threshold mp now hist symbol cur pst).1
        = some a ∧
      a.Symbol = symbol ∧ a.AlertTime = now ∧
      Analyzer.shouldAlert mp now hist symbol = true ∧
      (Analyzer.analyzeSymbol threshold mp now hist symbol cur pst).2
        = Analyzer.recordAlert now hist symbol) := by
  rcases cur with _ | c
  · exact Or.inl ⟨rfl, rfl⟩
  · rcases pst with _ | p
    · exact Or.inl ⟨rfl, rfl⟩
    · simp only [Analyzer.analyzeSymbol]
      by_cases h1 : threshold < (if (c.Price - p.Price) / p.Price * 100 < 0
          then -((c.Price - p.Price) / p.Price * 100)
          else (c.Price - p.Price) / p.Price * 100)
      · rw [if_pos h1]
        by_cases h2 : Analyzer.shouldAlert mp now hist symbol = true
        · rw [if_pos h2]
          exact Or.inr ⟨_, rfl, rfl, rfl, h2, rfl⟩
        · rw [if_neg h2]
          exact Or.inl ⟨rfl, rfl⟩
      · rw [if_neg h1]
        exact Or.inl ⟨rfl, rfl⟩

/-- Filtering the emitted alerts keeps an alert of the watched symbol. -/
theorem alertTimesFor_cons_eq (s : String) (a : AlertData)
    (rest : List AlertData) (h : a.Symbol = s) :
    Analyzer.alertTimesFor s (a :: rest)
      = a.AlertTime :: Analyzer.alertTimesFor s rest := by
  simp [Analyzer.alertTimesFor, List.filter_cons, h]

/-- Filtering the emitted alerts skips an alert of another symbol. -/
theorem alertTimesFor_cons_ne (s : String) (a : AlertData)
    (rest : List AlertData) (h : ¬ a.Symbol = s) :
    Analyzer.alertTimesFor s (a :: rest) = Analyzer.alertTimesFor s rest := by
  simp [Analyzer.alertTimesFor, List.filter_cons, h]

/-- The central dedup invariant: running the analyzer over a
time-ordered trace emits, for each symbol, alert times that are pairwise
separated by more than the monitor period — provided the period is
nonnegative and at most the one-hour pruning horizon. `last` abstracts
the time of the symbol's most recent alert: the ledger either still
holds exactly it, or pruned it because it predates every remaining event
by more than one hour. -/
theorem runAnalyzer_pairwise (threshold : ℚ) (mp : ℤ)
    (hmp0 : 0 ≤ mp) (hmp1 : mp ≤ 3600) (s : String) :
    ∀ (events : List Analyzer.AnalyzeEvent) (hist : Analyzer.AlertHistory)
      (last : Option ℤ),
      List.Pairwise (fun e1 e2 => e1.Now ≤ e2.Now) events →
      (∀ t, hist s = some t →
        ∃ t0, last = some t0 ∧ t0 = t ∧ ∀ e ∈ events, t ≤ e.Now) →
      (∀ t0, hist s = none → last = some t0 →
        ∀ e ∈ events, t0 + 3600 < e.Now) →
      List.Pairwise (fun t1 t2 => mp < t2 - t1)
        (last.toList ++ Analyzer.alertTimesFor s
          (Analyzer.runAnalyzer threshold mp hist events)) := by
  intro events
  induction events with
  | nil =>
    intro hist last _ _ _
    rcases last with _ | t0
    · simp [Analyzer.runAnalyzer, Analyzer.alertTimesFor]
    · simp [Analyzer.runAnalyzer, Analyzer.alertTimesFor]
  | cons e es ih =>
    intro hist last hsorted hsome hnone
    have hbound := (List.pairwise_cons.1 hsorted).1
    have hsorted2 := (List.pairwise_cons.1 hsorted).2
    rcases analyzeSymbol_cases threshold mp e.Now hist e.Symbol e.Current e.Past
      with ⟨hn, hs2⟩ | ⟨a, ha, haSym, haTime, hshould, hs2⟩
    · -- no alert at this event: ledger unchanged
      have hpair : Analyzer.analyzeSymbol threshold mp e.Now hist e.Symbol
          e.Current e.Past = (none, hist) := by
        rcases hres : Analyzer.analyzeSymbol threshold mp e.Now hist e.Symbol
          e.Current e.Past with ⟨o, hist2⟩
        rw [hres] at hn hs2
        obtain rfl : o = none := hn
        obtain rfl : hist2 = hist := hs2
        rfl
      have hrun : Analyzer.runAnalyzer threshold mp hist (e :: es)
          = Analyzer.runAnalyzer threshold mp hist es := by
        simp only [Analyzer.runAnalyzer, hpair]
      rw [hrun]
      refine ih hist last hsorted2 ?_ ?_
      · intro t ht
        obtain ⟨t0, hl, het, hall⟩ := hsome t ht
        exact ⟨t0, hl, het, fun e2 he2 => hall e2 (List.mem_cons_of_mem _ he2)⟩
      · intro t0 hh hl
        exact fun e2 he2 => hnone t0 hh hl e2 (List.mem_cons_of_mem _ he2)
    · -- an alert is emitted and recorded at time e.Now
      have hpair : Analyzer.analyzeSymbol threshold mp e.Now hist e.Symbol
          e.Current e.Past
          = (some a, Analyzer.recordAlert e.Now hist e.Symbol) := by
        rcases hres : Analyzer.analyzeSymbol threshold mp e.Now hist e.Symbol
          e.Current e.Past with ⟨o, hist2⟩
        rw [hres] at ha hs2
        obtain rfl : o = some a := ha
        obtain rfl : hist2 = Analyzer.recordAlert e.Now hist e.Symbol := hs2
        rfl
      have hrun : Analyzer.runAnalyzer threshold mp hist (e :: es)
          = a :: Analyzer.runAnalyzer threshold mp
              (Analyzer.recordAlert e.Now hist e.Symbol) es := by
        simp only [Analyzer.runAnalyzer, hpair]
      rw [hrun]
      by_cases hES : e.Symbol = s
      · -- the watched symbol alerts now
        rw [alertTimesFor_cons_eq s a _ (haSym.trans hES), haTime]
        have hrec : Analyzer.recordAlert e.Now hist e.Symbol s
            = some e.Now := by
          rw [hES]
          exact recordAlert_self e.Now hist s
        have htail := ih (Analyzer.recordAlert e.Now hist e.Symbol)
          (some e.Now) hsorted2
          (by
            intro t ht
            rw [hrec] at ht
            obtain rfl := Option.some.inj ht
            exact ⟨e.Now, rfl, rfl, fun e2 he2 => hbound e2 he2⟩)
          (by
            intro t0 hh _
            rw [hrec] at hh
            exact absurd hh (by simp))
        have htail2 : List.Pairwise (fun t1 t2 => mp < t2 - t1)
            (e.Now :: Analyzer.alertTimesFor s
              (Analyzer.runAnalyzer threshold mp
                (Analyzer.recordAlert e.Now hist e.Symbol) es)) := by
          simpa using htail
        rcases last with _ | t0
        · simpa using htail2
        · -- the previous alert was at t0: show the gap to e.Now
          have hgap : mp < e.Now - t0 := by
            cases hh : hist s with
            | some t =>
              obtain ⟨t0b, hl, het, _⟩ := hsome t hh
              obtain rfl : t0 = t0b := Option.some.inj hl
              subst het
              have hsa : Analyzer.shouldAlert mp e.Now hist s = true := by
                rw [← hES]
                exact hshould
              simp only [Analyzer.shouldAlert, hh] at hsa
              exact of_decide_eq_true hsa
            | none =>
              have := hnone t0 hh rfl e (List.mem_cons_self _ _)
              omega
          simp only [Option.toList, List.singleton_append]
          rw [List.pairwise_cons]
          refine ⟨?_, htail2⟩
          intro t ht
          rcases List.mem_cons.1 ht with rfl | hmem
          · exact hgap
          · have h1 := (List.pairwise_cons.1 htail2).1 t hmem
            omega
      · -- another symbol alerts: the entry of `s` can only be pruned
        rw [alertTimesFor_cons_ne s a _ (fun hc => hES (haSym.symm.trans hc))]
        refine ih (Analyzer.recordAlert e.Now hist e.Symbol) last hsorted2 ?_ ?_
        · intro t ht
          cases hh : hist s with
          | none =>
            rw [recordAlert_other_none e.Now hist e.Symbol s
              (fun hc => hES hc.symm) hh] at ht
            exact absurd ht (by simp)
          | some t1 =>
            rw [recordAlert_other_some e.Now hist e.Symbol s t1
              (fun hc => hES hc.symm) hh] at ht
            by_cases hold : t1 < e.Now - 3600
            · rw [if_pos hold] at ht
              exact absurd ht (by simp)
            · rw [if_neg hold] at ht
              obtain rfl := Option.some.inj ht
              obtain ⟨t0, hl, het, hall⟩ := hsome t1 hh
              exact ⟨t0, hl, het,
                fun e2 he2 => hall e2 (List.mem_cons_of_mem _ he2)⟩
        · intro t0 hh hl
          cases hh2 : hist s with
          | none =>
            rw [recordAlert_other_none e.Now hist e.Symbol s
              (fun hc => hES hc.symm) hh2] at hh
            exact fun e2 he2 =>
              hnone t0 hh2 hl e2 (List.mem_cons_of_mem _ he2)
          | some t1 =>
            rw [recordAlert_other_some e.Now hist e.Symbol s t1
              (fun hc => hES hc.symm) hh2] at hh
            by_cases hold : t1 < e.Now - 3600
            · -- pruned now: the old alert predates every later event by 1h
              obtain ⟨t0b, hlb, het, _⟩ := hsome t1 hh2
              rw [hl] at hlb
              obtain rfl : t0 = t0b := Option.some.inj hlb
              subst het
              intro e2 he2
              have hb := hbound e2 he2
              omega
            · rw [if_neg hold] at hh
              exact absurd hh (by simp)

/-- C4 (counterexample): with a monitor period of two hours (7200 s) the
ledger does not enforce the cooldown — "s" alerts at time 0, its entry
is pruned as hour-old when "s2" alerts at 5400, and "s" re-alerts at
5460, only 91 minutes after its previous alert. -/
theorem dedup_cooldown_counterexample :
    Analyzer.alertTimesFor "s"
      (Analyzer.runAnalyzer 1 7200 Analyzer.emptyHistory W.cexEvents)
      = [0, 5460] ∧
    ¬ ((7200 : ℤ) < 5460 - 0) := by
  with_unfolding_all decide

/-- C4 (amended): provided the monitor period is nonnegative and at most
the one-hour ledger-pruning horizon, any two alerts the analyzer emits
for the same symbol along a time-ordered event trace are separated by
more than the monitor period. (For periods beyond one hour the pruning
can re-enable a symbol early — see the counterexample.) -/
theorem alerts_separated_by_monitor_period (threshold : ℚ) (mp : ℤ)
    (hmp0 : 0 ≤ mp) (hmp1 : mp ≤ 3600)
    (events : List Analyzer.AnalyzeEvent)
    (hsorted : List.Pairwise (fun e1 e2 => e1.Now ≤ e2.Now) events)
    (s : String) :
    List.Pairwise (fun t1 t2 => mp < t2 - t1)
      (Analyzer.alertTimesFor s
        (Analyzer.runAnalyzer threshold mp Analyzer.emptyHistory events)) := by
  have h := runAnalyzer_pairwise threshold mp hmp0 hmp1 s events
    Analyzer.emptyHistory none hsorted
    (fun t ht => absurd ht (by simp [Analyzer.emptyHistory]))
    (fun t0 _ ht0 => absurd ht0 (by simp))
  simpa using h

/-- C4 (witness for the amended theorem): on the three-event trace with
a five-minute monitor period, the alert times of "s" (0 and 5460) are
separated by more than 300 s. -/
theorem alerts_separated_witness :
    List.Pairwise (fun t1 t2 => (300 : ℤ) < t2 - t1)
      (Analyzer.alertTimesFor "s"
        (Analyzer.runAnalyzer 1 300 Analyzer.emptyHistory W.cexEvents)) :=
  alerts_separated_by_monitor_period 1 300 (by decide) (by decide)
    W.cexEvents (by with_unfolding_all decide) "s"

end OkxSentry
